import Mathlib

/-!
Verification of the mlc-llm router subsystem and the Android build diagnostic.

The repository evidence contains the router's test suite
(`tests/python/router/test_router_defaults.py`) and the Android build
diagnostic (`android/diagnose_android_build.py`).  The router implementation
itself (`python/mlc_llm/router/router.py`) is not among the available source
files, so the router-side definitions below are modelled from the
specification; each such definition says so in its doc comment.  The
diagnostic-side definitions are translated directly from
`android/diagnose_android_build.py`.
-/

/-- Modelled from the spec: status of one EndpointHandle (spec section 4.4,
state machine `Starting -> Ready | Failed`, `Ready/Failed -> Terminated`).
The router implementation `python/mlc_llm/router/router.py` is not among the
available source files. -/
inductive EndpointStatus where
  | Starting
  | Ready
  | Failed
  | Terminated
deriving DecidableEq, Repr, Inhabited

/-- Modelled from the spec: the error taxonomy of spec section 7, restricted
to the error kinds the claims mention (configuration, startup/launch and
routing errors). -/
inductive RouterError where
  | configurationError (msg : String)
  | startupError (msg : String)
  | routingError (msg : String)
deriving DecidableEq, Repr

/-- Modelled from the spec: the DeviceAllocator's cumulative start sequence
(spec section 4.1): `starts[0] = s` and `starts[i+1] = starts[i] + counts[i]`.
The router implementation is not among the available source files. -/
def deviceIdStarts : Int → List Int → List Int
  | s, [] => [s]
  | s, c :: cs => s :: deviceIdStarts (s + c) cs

/-- Modelled from the spec: the DeviceAllocator contract (spec section 4.1).
Given a count `n` of endpoints and an optional GPU-count hint, produce the
`n+1` device-id start values, defaulting to one GPU per endpoint; fail with a
configuration error when the hint length differs from `n` or a count is
non-positive.  The router implementation is not among the available source
files. -/
def allocateDevices (n : Nat) (hint : Option (List Int)) :
    Except RouterError (List Int) :=
  match hint with
  | none => .ok (deviceIdStarts 0 (List.replicate n 1))
  | some counts =>
    if counts.length ≠ n then
      .error (.configurationError "gpu count hint length does not match the number of endpoints")
    else if counts.any (fun c => c ≤ 0) then
      .error (.configurationError "gpu counts must be positive")
    else
      .ok (deviceIdStarts 0 counts)

/-- Modelled from the spec: the start sequence produced when no GPU-count hint
is supplied (one device per endpoint). -/
def defaultStarts (n : Nat) : List Int :=
  deviceIdStarts 0 (List.replicate n 1)

theorem deviceIdStarts_length (s : Int) (counts : List Int) :
    (deviceIdStarts s counts).length = counts.length + 1 := by
  induction counts generalizing s with
  | nil => rfl
  | cons c cs ih => simp [deviceIdStarts, ih]

theorem deviceIdStarts_getD (counts : List Int) (s : Int) (i : Nat)
    (h : i ≤ counts.length) :
    (deviceIdStarts s counts).getD i 0 = s + (counts.take i).sum := by
  induction counts generalizing s i with
  | nil =>
    have hi : i = 0 := Nat.le_zero.mp h
    subst hi
    simp [deviceIdStarts]
  | cons c cs ih =>
    cases i with
    | zero => simp [deviceIdStarts]
    | succ k =>
      have hk : k ≤ cs.length := by simpa using h
      simp only [deviceIdStarts, List.getD_cons_succ, List.take_succ_cons, List.sum_cons]
      rw [ih (s + c) k hk]
      ring

theorem sum_take_succ_getD (counts : List Int) (i : Nat) (h : i < counts.length) :
    (counts.take (i + 1)).sum = (counts.take i).sum + counts.getD i 0 := by
  rw [List.sum_take_succ counts i h, List.getD_eq_getElem counts 0 h]

theorem getD_mem_of_lt (counts : List Int) (i : Nat) (h : i < counts.length) :
    counts.getD i 0 ∈ counts := by
  rw [List.getD_eq_getElem counts 0 h]
  exact List.getElem_mem h

theorem sum_take_mono (counts : List Int) (hpos : ∀ c ∈ counts, 0 < c)
    (i j : Nat) (hij : i ≤ j) (hj : j ≤ counts.length) :
    (counts.take i).sum ≤ (counts.take j).sum := by
  induction j with
  | zero =>
    have hi : i = 0 := Nat.le_zero.mp hij
    subst hi
    exact le_refl _
  | succ k ih =>
    have hk : k < counts.length := hj
    rcases Nat.eq_or_lt_of_le hij with rfl | hlt
    · exact le_refl _
    · have hik : i ≤ k := Nat.lt_succ_iff.mp hlt
      have h1 : (counts.take i).sum ≤ (counts.take k).sum := ih hik (le_of_lt hk)
      have h2 : 0 < counts.getD k 0 := hpos _ (getD_mem_of_lt counts k hk)
      have h3 := sum_take_succ_getD counts k hk
      omega

theorem sum_take_strict (counts : List Int) (hpos : ∀ c ∈ counts, 0 < c)
    (i j : Nat) (hij : i < j) (hj : j ≤ counts.length) :
    (counts.take i).sum < (counts.take j).sum := by
  have hi : i < counts.length := lt_of_lt_of_le hij hj
  have h1 : 0 < counts.getD i 0 := hpos _ (getD_mem_of_lt counts i hi)
  have h2 := sum_take_succ_getD counts i hi
  have h3 : (counts.take (i + 1)).sum ≤ (counts.take j).sum :=
    sum_take_mono counts hpos (i + 1) j hij hj
  omega

theorem deviceIdStarts_replicate (n : Nat) (s : Int) :
    deviceIdStarts s (List.replicate n 1) =
      (List.range (n + 1)).map (fun i : Nat => s + (i : Int)) := by
  induction n generalizing s with
  | zero => simp [deviceIdStarts, List.range_succ]
  | succ n ih =>
    rw [List.replicate_succ]
    simp only [deviceIdStarts]
    rw [ih (s + 1), List.range_succ_eq_map (n + 1), List.map_cons, List.map_map]
    congr 1
    · simp
    · apply List.map_congr_left
      intro a _
      simp only [Function.comp_apply, Nat.succ_eq_add_one]
      push_cast
      ring

/-- C1: with no GPU-count hint, the DeviceAllocator produces for N endpoints a
start sequence of length N+1 whose first element is 0 and whose consecutive
differences all equal 1; in particular, for 3 endpoints it equals
[0, 1, 2, 3]. -/
theorem default_allocation_unit_ladder (n : Nat) :
    allocateDevices n none = Except.ok (defaultStarts n) ∧
    (defaultStarts n).length = n + 1 ∧
    (defaultStarts n).getD 0 0 = 0 ∧
    (∀ i, i < n →
      (defaultStarts n).getD (i + 1) 0 - (defaultStarts n).getD i 0 = 1) ∧
    defaultStarts 3 = [0, 1, 2, 3] := by
  refine ⟨rfl, ?_, ?_, ?_, by decide⟩
  · simp [defaultStarts, deviceIdStarts_length]
  · have h := deviceIdStarts_getD (List.replicate n (1 : Int)) 0 0 (Nat.zero_le _)
    simpa [defaultStarts] using h
  · intro i hi
    have hlen : i < (List.replicate n (1 : Int)).length := by simpa using hi
    have h1 := deviceIdStarts_getD (List.replicate n (1 : Int)) 0 (i + 1) hlen
    have h2 := deviceIdStarts_getD (List.replicate n (1 : Int)) 0 i (le_of_lt hlen)
    have h3 := sum_take_succ_getD (List.replicate n (1 : Int)) i hlen
    have h4 : (List.replicate n (1 : Int)).getD i 0 = 1 := by
      rw [List.getD_eq_getElem _ 0 hlen]
      simp
    simp only [defaultStarts]
    omega

/-- Witness for C1 at 3 endpoints: the computed starts are [0, 1, 2, 3] and
the first consecutive difference is 1. -/
theorem default_allocation_unit_ladder_spotcheck :
    allocateDevices 3 none = Except.ok [0, 1, 2, 3] ∧
    (defaultStarts 3).getD 1 0 - (defaultStarts 3).getD 0 0 = 1 := by
  have h := default_allocation_unit_ladder 3
  refine ⟨?_, h.2.2.2.1 0 (by decide)⟩
  rw [← h.2.2.2.2]
  exact h.1

theorem sum_take_cover (counts : List Int) (hpos : ∀ c ∈ counts, 0 < c)
    (x : Int) (hx0 : 0 ≤ x) (hxs : x < counts.sum) :
    ∃ i, i < counts.length ∧ (counts.take i).sum ≤ x ∧
      x < (counts.take (i + 1)).sum := by
  induction counts generalizing x with
  | nil => simp at hxs; omega
  | cons c cs ih =>
    by_cases hxc : x < c
    · exact ⟨0, by simp, by simpa using hx0, by simpa using hxc⟩
    · have hc : 0 < c := hpos c (by simp)
      have hpos2 : ∀ d ∈ cs, 0 < d := fun d hd => hpos d (by simp [hd])
      have hx0c : 0 ≤ x - c := by omega
      have hxsc : x - c < cs.sum := by
        simp only [List.sum_cons] at hxs
        omega
      obtain ⟨i, hi, hlo, hhi⟩ := ih hpos2 (x - c) hx0c hxsc
      refine ⟨i + 1, by simpa using hi, ?_, ?_⟩
      · simp only [List.take_succ_cons, List.sum_cons]
        omega
      · simp only [List.take_succ_cons, List.sum_cons]
        omega

/-- C3: for positive per-endpoint GPU counts, the allocator accepts the hint
and produces starts with starts[0] = 0 and starts[i+1] = starts[i] +
counts[i]; the device ranges [starts[i], starts[i+1]) are pairwise disjoint
and together cover [0, starts[N]) exactly; for the hint [2, 1, 3] the starts
are [0, 2, 3, 6]. -/
theorem hint_allocation_partition (counts : List Int)
    (hpos : ∀ c ∈ counts, 0 < c) :
    allocateDevices counts.length (some counts) =
      Except.ok (deviceIdStarts 0 counts) ∧
    (deviceIdStarts 0 counts).getD 0 0 = 0 ∧
    (∀ i, i < counts.length →
      (deviceIdStarts 0 counts).getD (i + 1) 0 =
        (deviceIdStarts 0 counts).getD i 0 + counts.getD i 0) ∧
    (∀ i j, i < counts.length → j < counts.length → i ≠ j → ∀ x : Int,
      ¬ ((deviceIdStarts 0 counts).getD i 0 ≤ x ∧
         x < (deviceIdStarts 0 counts).getD (i + 1) 0 ∧
         (deviceIdStarts 0 counts).getD j 0 ≤ x ∧
         x < (deviceIdStarts 0 counts).getD (j + 1) 0)) ∧
    (∀ x : Int,
      (0 ≤ x ∧ x < (deviceIdStarts 0 counts).getD counts.length 0) ↔
      (∃ i, i < counts.length ∧
        (deviceIdStarts 0 counts).getD i 0 ≤ x ∧
        x < (deviceIdStarts 0 counts).getD (i + 1) 0)) ∧
    deviceIdStarts 0 [2, 1, 3] = [0, 2, 3, 6] := by
  have hgetD : ∀ i, i ≤ counts.length →
      (deviceIdStarts 0 counts).getD i 0 = (counts.take i).sum := by
    intro i hi
    have h := deviceIdStarts_getD counts 0 i hi
    omega
  have key : ∀ i j, i < j → j < counts.length → ∀ x : Int,
      ¬ ((deviceIdStarts 0 counts).getD i 0 ≤ x ∧
         x < (deviceIdStarts 0 counts).getD (i + 1) 0 ∧
         (deviceIdStarts 0 counts).getD j 0 ≤ x ∧
         x < (deviceIdStarts 0 counts).getD (j + 1) 0) := by
    intro i j hij hj x hx
    have h1 := hgetD (i + 1) (by omega)
    have h2 := hgetD j (by omega)
    have hle : (counts.take (i + 1)).sum ≤ (counts.take j).sum :=
      sum_take_mono counts hpos (i + 1) j hij (by omega)
    omega
  refine ⟨?_, ?_, ?_, ?_, ?_, by decide⟩
  · have hany : counts.any (fun c => c ≤ 0) = false := by
      simp only [List.any_eq_false, decide_eq_true_eq]
      intro c hc
      exact not_le.mpr (hpos c hc)
    simp [allocateDevices, hany]
  · simpa using hgetD 0 (Nat.zero_le _)
  · intro i hi
    have h1 := hgetD (i + 1) (by omega)
    have h2 := hgetD i (by omega)
    have h3 := sum_take_succ_getD counts i hi
    omega
  · intro i j hi hj hne x hx
    rcases Nat.lt_or_gt_of_ne hne with hlt | hgt
    · exact key i j hlt hj x hx
    · exact key j i hgt hi x ⟨hx.2.2.1, hx.2.2.2, hx.1, hx.2.1⟩
  · intro x
    have hN := hgetD counts.length (le_refl _)
    rw [List.take_length] at hN
    constructor
    · rintro ⟨hx0, hxN⟩
      obtain ⟨i, hi, hlo, hhi⟩ :=
        sum_take_cover counts hpos x hx0 (by omega)
      refine ⟨i, hi, ?_, ?_⟩
      · rw [hgetD i (by omega)]; exact hlo
      · rw [hgetD (i + 1) (by omega)]; exact hhi
    · rintro ⟨i, hi, hlo, hhi⟩
      have h1 := hgetD i (by omega)
      have h2 := hgetD (i + 1) (by omega)
      have h3 : (0 : Int) ≤ (counts.take i).sum := by
        have := sum_take_mono counts hpos 0 i (Nat.zero_le _) (by omega)
        simpa using this
      have h4 : (counts.take (i + 1)).sum ≤ counts.sum := by
        have := sum_take_mono counts hpos (i + 1) counts.length (by omega) (le_refl _)
        rwa [List.take_length] at this
      omega

/-- Witness for C3 at the hint [2, 1, 3]: the allocator returns
[0, 2, 3, 6]. -/
theorem hint_allocation_partition_spotcheck :
    allocateDevices 3 (some [2, 1, 3]) = Except.ok [0, 2, 3, 6] := by
  have h := hint_allocation_partition [2, 1, 3] (by decide)
  have e := h.2.2.2.2.2
  rw [← e]
  exact h.1

/-- Modelled from the spec: one endpoint handle (spec section 3), holding the
endpoint identity, its half-open device range and its supervisor status.  The
router implementation is not among the available source files. -/
structure EndpointHandle where
  host : String
  port : Nat
  deviceLo : Int
  deviceHi : Int
  status : EndpointStatus
deriving DecidableEq, Repr, Inhabited

/-- Modelled from the spec: Router state (spec sections 3 and 4.4): the list
of endpoint handles, the device-id start sequence, and the monotonic
round-robin counter of spec section 5. -/
structure Router where
  handles : List EndpointHandle
  deviceIdStarts : List Int
  rrCounter : Nat
deriving DecidableEq, Repr

/-- Modelled from the spec: the externally observable lifecycle events of
construction — launching an endpoint's engine process with its
device-selector string, and invoking a supervisor's terminate. -/
inductive RouterEvent where
  | launched (idx : Nat) (device : String)
  | terminated (idx : Nat)
deriving DecidableEq, Repr

/-- Modelled from the spec: the device-selector string handed to endpoint `i`
(spec section 6: `"<accelerator>:<index>"`). -/
def deviceSelector (device : String) (starts : List Int) (i : Nat) : String :=
  device ++ ":" ++ toString (starts.getD i 0)

/-- Modelled from the spec: the launch phase of Router construction (spec
section 4.4).  `outcome i` abstracts whether endpoint `i`'s engine process
starts and becomes Ready.  Endpoints that start are launched with their
device-selector string; if every endpoint becomes Ready the Router is
returned, otherwise construction fails with a startup error and every
supervisor that did start is terminated. -/
def routerLaunch (device : String) (hosts : List String) (ports : List Nat)
    (starts : List Int) (outcome : Nat → Bool) :
    Except RouterError Router × List RouterEvent :=
  let n := hosts.length
  let started := (List.range n).filter outcome
  let launches := started.map
    (fun i => RouterEvent.launched i (deviceSelector device starts i))
  if started.length = n then
    (.ok { handles := (List.range n).map (fun i =>
             { host := hosts.getD i "",
               port := ports.getD i 0,
               deviceLo := starts.getD i 0,
               deviceHi := starts.getD (i + 1) 0,
               status := .Ready }),
           deviceIdStarts := starts,
           rrCounter := 0 },
     launches)
  else
    (.error (.startupError "one or more endpoints failed to start"),
     launches ++ started.map RouterEvent.terminated)

/-- Modelled from the spec: Router construction (spec section 4.4).  Device
ranges are computed first by the DeviceAllocator; a configuration error
aborts construction before any process is launched. -/
def routerConstruct (device : String) (hosts : List String) (ports : List Nat)
    (numGpus : Option (List Int)) (outcome : Nat → Bool) :
    Except RouterError Router × List RouterEvent :=
  match allocateDevices hosts.length numGpus with
  | .error e => (.error e, [])
  | .ok starts => routerLaunch device hosts ports starts outcome

theorem defaultStarts_getD (n i : Nat) (h : i ≤ n) :
    (defaultStarts n).getD i 0 = (i : Int) := by
  have hg := deviceIdStarts_getD (List.replicate n (1 : Int)) 0 i (by simpa using h)
  simp only [defaultStarts]
  rw [hg, List.take_replicate, List.sum_replicate]
  simp [Nat.min_eq_left h]

/-- C2: with no GPU-count hint and every endpoint starting successfully,
construction succeeds and endpoint `i` is launched with the device-selector
string `"<device>:<i>"`. -/
theorem default_launch_device_selectors (device : String) (hosts : List String)
    (ports : List Nat) (outcome : Nat → Bool)
    (hout : ∀ i, outcome i = true) :
    (∃ r, (routerConstruct device hosts ports none outcome).1 = .ok r) ∧
    (routerConstruct device hosts ports none outcome).2 =
      (List.range hosts.length).map
        (fun i => RouterEvent.launched i (device ++ ":" ++ toString i)) := by
  have hrc : routerConstruct device hosts ports none outcome =
      routerLaunch device hosts ports (defaultStarts hosts.length) outcome := rfl
  have hfilter : (List.range hosts.length).filter outcome =
      List.range hosts.length :=
    List.filter_eq_self.mpr (fun a _ => by simp [hout a])
  have hlaunch : routerLaunch device hosts ports (defaultStarts hosts.length) outcome =
      (.ok { handles := (List.range hosts.length).map (fun i =>
               { host := hosts.getD i "",
                 port := ports.getD i 0,
                 deviceLo := (defaultStarts hosts.length).getD i 0,
                 deviceHi := (defaultStarts hosts.length).getD (i + 1) 0,
                 status := .Ready }),
             deviceIdStarts := defaultStarts hosts.length,
             rrCounter := 0 },
       (List.range hosts.length).map
         (fun i => RouterEvent.launched i
           (deviceSelector device (defaultStarts hosts.length) i))) := by
    simp only [routerLaunch, hfilter, List.length_range, if_pos]
  rw [hrc, hlaunch]
  refine ⟨⟨_, rfl⟩, ?_⟩
  apply List.map_congr_left
  intro i hi
  have hin : i ≤ hosts.length := le_of_lt (List.mem_range.mp hi)
  simp only [deviceSelector, defaultStarts_getD hosts.length i hin]
  rfl

/-- Witness for C2: three endpoints on a cuda accelerator are launched with
device selectors "cuda:0", "cuda:1" and "cuda:2". -/
theorem default_launch_device_selectors_spotcheck :
    (routerConstruct "cuda" ["host-a", "host-b", "host-c"] [8000, 8001, 8002]
        none (fun _ => true)).2 =
      [RouterEvent.launched 0 "cuda:0", RouterEvent.launched 1 "cuda:1",
       RouterEvent.launched 2 "cuda:2"] := by
  have h := default_launch_device_selectors "cuda" ["host-a", "host-b", "host-c"]
      [8000, 8001, 8002] (fun _ => true) (fun _ => rfl)
  rw [h.2]
  rfl

/-- C4: a GPU-count hint whose length differs from the number of endpoints, or
which contains a non-positive count, makes Router construction fail with a
configuration error, and no process is ever launched (the event trace is
empty). -/
theorem invalid_hint_fails_before_launch (device : String) (hosts : List String)
    (ports : List Nat) (counts : List Int) (outcome : Nat → Bool)
    (hbad : counts.length ≠ hosts.length ∨ ∃ c ∈ counts, c ≤ 0) :
    (∃ msg, (routerConstruct device hosts ports (some counts) outcome).1 =
        .error (.configurationError msg)) ∧
    (routerConstruct device hosts ports (some counts) outcome).2 = [] := by
  by_cases hlen : counts.length = hosts.length
  · rcases hbad with h | ⟨c, hc, hc0⟩
    · exact absurd hlen h
    · have hany : counts.any (fun c => c ≤ 0) = true := by
        simp only [List.any_eq_true, decide_eq_true_eq]
        exact ⟨c, hc, hc0⟩
      have hall : allocateDevices hosts.length (some counts) =
          .error (.configurationError "gpu counts must be positive") := by
        simp [allocateDevices, hlen, hany]
      exact ⟨⟨"gpu counts must be positive", by simp [routerConstruct, hall]⟩,
        by simp [routerConstruct, hall]⟩
  · have hall : allocateDevices hosts.length (some counts) =
        .error (.configurationError
          "gpu count hint length does not match the number of endpoints") := by
      simp [allocateDevices, hlen]
    exact ⟨⟨"gpu count hint length does not match the number of endpoints",
      by simp [routerConstruct, hall]⟩, by simp [routerConstruct, hall]⟩

/-- Witness for C4: a two-element hint for a single endpoint fails with a
configuration error and launches nothing. -/
theorem invalid_hint_fails_before_launch_spotcheck :
    (∃ msg, (routerConstruct "cuda" ["host-a"] [8000] (some [1, 1])
        (fun _ => true)).1 = .error (.configurationError msg)) ∧
    (routerConstruct "cuda" ["host-a"] [8000] (some [1, 1])
        (fun _ => true)).2 = [] :=
  invalid_hint_fails_before_launch "cuda" ["host-a"] [8000] [1, 1]
    (fun _ => true) (Or.inl (by decide))

theorem routerEvent_terminated_injective : Function.Injective RouterEvent.terminated := by
  intro a b h
  injection h

/-- C5: if some endpoint fails to start, Router construction fails with a
startup error instead of returning a Router, every supervisor that did start
has terminate invoked exactly once, and no never-started supervisor is
terminated. -/
theorem failed_start_terminates_started (device : String) (hosts : List String)
    (ports : List Nat) (outcome : Nat → Bool)
    (hfail : ∃ i, i < hosts.length ∧ outcome i = false) :
    (∃ msg, (routerConstruct device hosts ports none outcome).1 =
        .error (.startupError msg)) ∧
    (∀ i, i < hosts.length → outcome i = true →
      ((routerConstruct device hosts ports none outcome).2).count
        (RouterEvent.terminated i) = 1) ∧
    (∀ i, outcome i = false →
      ((routerConstruct device hosts ports none outcome).2).count
        (RouterEvent.terminated i) = 0) := by
  have hrc : routerConstruct device hosts ports none outcome =
      routerLaunch device hosts ports (defaultStarts hosts.length) outcome := rfl
  have hne : ((List.range hosts.length).filter outcome).length ≠ hosts.length := by
    intro heq
    obtain ⟨i0, hi0, hout0⟩ := hfail
    have hsub : ((List.range hosts.length).filter outcome).Sublist
        (List.range hosts.length) := List.filter_sublist _
    have heqlist := hsub.eq_of_length (by simpa using heq)
    have hmem : i0 ∈ (List.range hosts.length).filter outcome := by
      rw [heqlist]
      exact List.mem_range.mpr hi0
    have := (List.mem_filter.mp hmem).2
    simp [hout0] at this
  have hlaunch : routerLaunch device hosts ports (defaultStarts hosts.length) outcome =
      (.error (.startupError "one or more endpoints failed to start"),
       ((List.range hosts.length).filter outcome).map
         (fun i => RouterEvent.launched i
           (deviceSelector device (defaultStarts hosts.length) i)) ++
       ((List.range hosts.length).filter outcome).map RouterEvent.terminated) := by
    simp only [routerLaunch, if_neg hne]
  have hcl : ∀ i, (((List.range hosts.length).filter outcome).map
      (fun j => RouterEvent.launched j
        (deviceSelector device (defaultStarts hosts.length) j))).count
      (RouterEvent.terminated i) = 0 := by
    intro i
    rw [List.count_eq_zero]
    intro hmem
    obtain ⟨j, _, hj⟩ := List.mem_map.mp hmem
    exact RouterEvent.noConfusion hj
  have hct : ∀ i, (((List.range hosts.length).filter outcome).map
      RouterEvent.terminated).count (RouterEvent.terminated i) =
      ((List.range hosts.length).filter outcome).count i :=
    fun i => List.count_map_of_injective _ _ routerEvent_terminated_injective i
  rw [hrc, hlaunch]
  refine ⟨⟨_, rfl⟩, ?_, ?_⟩
  · intro i hi htrue
    rw [List.count_append, hcl, hct]
    rw [List.count_filter (by simp [htrue])]
    have := List.count_eq_one_of_mem (List.nodup_range hosts.length)
      (List.mem_range.mpr hi)
    omega
  · intro i hfalse
    rw [List.count_append, hcl, hct]
    have : ((List.range hosts.length).filter outcome).count i = 0 := by
      rw [List.count_eq_zero]
      intro hmem
      have := (List.mem_filter.mp hmem).2
      simp [hfalse] at this
    omega

/-- Witness for C5: with two endpoints where endpoint 1 fails to start,
construction fails with a startup error, endpoint 0 (which started) is
terminated exactly once, and endpoint 1 is never terminated. -/
theorem failed_start_terminates_started_spotcheck :
    (∃ msg, (routerConstruct "cuda" ["host-a", "host-b"] [8000, 8001] none
        (fun i => i == 0)).1 = .error (.startupError msg)) ∧
    ((routerConstruct "cuda" ["host-a", "host-b"] [8000, 8001] none
        (fun i => i == 0)).2).count (RouterEvent.terminated 0) = 1 ∧
    ((routerConstruct "cuda" ["host-a", "host-b"] [8000, 8001] none
        (fun i => i == 0)).2).count (RouterEvent.terminated 1) = 0 := by
  have h := failed_start_terminates_started "cuda" ["host-a", "host-b"]
      [8000, 8001] (fun i => i == 0) ⟨1, by decide, by decide⟩
  exact ⟨h.1, h.2.1 0 (by decide) (by decide), h.2.2 1 (by decide)⟩

/-- Modelled from the spec: Router shutdown (spec sections 4.4 and 7).
`terminate` calls terminate on every supervisor in turn, collecting but never
re-raising individual failures, so it is a total state transformation that
drives every handle to Terminated regardless of its prior status. -/
def Router.terminate (r : Router) : Router :=
  { r with handles := r.handles.map (fun h => { h with status := .Terminated }) }

/-- C6: terminate is idempotent — calling it twice yields exactly the
terminal state of calling it once, neither call can raise (terminate is a
total state transformation), and after any call every endpoint handle is in
Terminated status regardless of prior Failed states. -/
theorem terminate_idempotent (r : Router) :
    r.terminate.terminate = r.terminate ∧
    ∀ h ∈ r.terminate.handles, h.status = EndpointStatus.Terminated := by
  constructor
  · simp [Router.terminate, List.map_map, Function.comp]
  · intro h hm
    simp only [Router.terminate, List.mem_map] at hm
    obtain ⟨a, _, ha⟩ := hm
    rw [← ha]

/-- Modelled from the spec: a one-endpoint Router whose endpoint has Failed,
used to exercise shutdown and routing-error behaviour. -/
def sampleFailedRouter : Router :=
  { handles := [{ host := "host-a", port := 8000, deviceLo := 0,
                  deviceHi := 1, status := .Failed }],
    deviceIdStarts := [0, 1],
    rrCounter := 0 }

/-- Witness for C6 on a Router whose only endpoint previously Failed. -/
theorem terminate_idempotent_spotcheck :
    sampleFailedRouter.terminate.terminate = sampleFailedRouter.terminate ∧
    ({ host := "host-a", port := 8000, deviceLo := 0, deviceHi := 1,
       status := EndpointStatus.Terminated } : EndpointHandle).status =
      EndpointStatus.Terminated := by
  have h := terminate_idempotent sampleFailedRouter
  refine ⟨h.1, h.2 _ ?_⟩
  simp [sampleFailedRouter, Router.terminate]

/-- Modelled from the spec: the indices of the Router's Ready endpoints. -/
def readyIndices (r : Router) : List Nat :=
  (List.range r.handles.length).filter
    (fun i => (r.handles.getD i default).status == EndpointStatus.Ready)

/-- Modelled from the spec: the routing policies of spec section 4.4 —
stateless round-robin by default, explicit pinning to one endpoint, or a
disaggregated prefill/decode split across two endpoints. -/
inductive RoutingPolicy where
  | roundRobin
  | pinned (idx : Nat)
  | disaggregated
deriving DecidableEq, Repr

/-- Modelled from the spec: the Router's dispatch decision (spec section
4.4).  Returns the target endpoint indices for a completion request together
with the updated Router; targets are only ever drawn from the Ready
endpoints, and when no Ready endpoint can serve the request a routing error
is reported while the Router state is left unchanged. -/
def Router.dispatch (r : Router) (p : RoutingPolicy) :
    Except RouterError (List Nat) × Router :=
  let ready := readyIndices r
  match p with
  | .roundRobin =>
    if ready.isEmpty then
      (.error (.routingError "no Ready endpoint available"), r)
    else
      (.ok [ready.getD (r.rrCounter % ready.length) 0],
       { r with rrCounter := r.rrCounter + 1 })
  | .pinned i =>
    if ready.contains i then (.ok [i], r)
    else (.error (.routingError "pinned endpoint is not Ready"), r)
  | .disaggregated =>
    if ready.isEmpty then
      (.error (.routingError "no Ready endpoint available"), r)
    else
      (.ok [ready.getD (r.rrCounter % ready.length) 0,
            ready.getD ((r.rrCounter + 1) % ready.length) 0],
       { r with rrCounter := r.rrCounter + 2 })

/-- Modelled from the spec: `forward` routes one completion request under the
default round-robin policy. -/
def Router.forward (r : Router) : Except RouterError (List Nat) × Router :=
  r.dispatch .roundRobin

/-- Modelled from the spec: `k` successive forward calls, collecting every
endpoint index a request was dispatched to. -/
def forwardRounds : Router → Nat → List Nat × Router
  | r, 0 => ([], r)
  | r, k + 1 =>
    let step := r.forward
    let picked := match step.1 with
      | .ok ts => ts
      | .error _ => []
    let rest := forwardRounds step.2 k
    (picked ++ rest.1, rest.2)

/-- C8: when zero endpoints are Ready, forward reports a routing error — and
no other kind of failure — and leaves the Router state unchanged, so the
Router remains usable for subsequent calls. -/
theorem forward_without_ready_endpoint (r : Router)
    (h : ∀ hd ∈ r.handles, hd.status ≠ EndpointStatus.Ready) :
    r.forward = (.error (.routingError "no Ready endpoint available"), r) := by
  have hempty : readyIndices r = [] := by
    simp only [readyIndices, List.filter_eq_nil_iff]
    intro i hi
    have hlt : i < r.handles.length := List.mem_range.mp hi
    have hmem : r.handles.getD i default ∈ r.handles := by
      rw [List.getD_eq_getElem _ default hlt]
      exact List.getElem_mem hlt
    simpa using h _ hmem
  simp [Router.forward, Router.dispatch, hempty]

/-- Witness for C8 on a Router whose only endpoint has Failed. -/
theorem forward_without_ready_endpoint_spotcheck :
    sampleFailedRouter.forward =
      (.error (.routingError "no Ready endpoint available"), sampleFailedRouter) :=
  forward_without_ready_endpoint sampleFailedRouter (by decide)

theorem readyIndices_sound (r : Router) :
    ∀ t ∈ readyIndices r, t < r.handles.length ∧
      (r.handles.getD t default).status = EndpointStatus.Ready := by
  intro t ht
  have h := List.mem_filter.mp ht
  refine ⟨List.mem_range.mp h.1, ?_⟩
  simpa using h.2

theorem getD_mem_of_lt_nat (l : List Nat) (i : Nat) (h : i < l.length) :
    l.getD i 0 ∈ l := by
  rw [List.getD_eq_getElem l 0 h]
  exact List.getElem_mem h

/-- C9: under every routing policy — round-robin, pinned, or disaggregated
prefill/decode — a completion request is only ever dispatched to endpoints
whose status is Ready. -/
theorem dispatch_only_ready (r : Router) (p : RoutingPolicy) (targets : List Nat)
    (h : (r.dispatch p).1 = .ok targets) :
    ∀ t ∈ targets, t < r.handles.length ∧
      (r.handles.getD t default).status = EndpointStatus.Ready := by
  intro t ht
  apply readyIndices_sound r
  cases p with
  | roundRobin =>
    by_cases he : (readyIndices r).isEmpty = true
    · have hd : r.dispatch .roundRobin =
          (.error (.routingError "no Ready endpoint available"), r) := by
        simp [Router.dispatch, he]
      rw [hd] at h
      exact absurd h (by simp)
    · have hne2 : readyIndices r ≠ [] := fun hnil => he (List.isEmpty_iff.mpr hnil)
      have hpos : 0 < (readyIndices r).length := List.length_pos.mpr hne2
      have hd : r.dispatch .roundRobin =
          (.ok [(readyIndices r).getD (r.rrCounter % (readyIndices r).length) 0],
           { r with rrCounter := r.rrCounter + 1 }) := by
        simp [Router.dispatch, he]
      have htar : targets =
          [(readyIndices r).getD (r.rrCounter % (readyIndices r).length) 0] := by
        rw [hd] at h
        simpa using h.symm
      subst htar
      rw [List.mem_singleton] at ht
      subst ht
      exact getD_mem_of_lt_nat _ _ (Nat.mod_lt _ hpos)
  | pinned i =>
    by_cases hc : (readyIndices r).contains i
    · have hcm : i ∈ readyIndices r := by simpa using hc
      have hd : r.dispatch (.pinned i) = (.ok [i], r) := by
        simp [Router.dispatch, hcm]
      have htar : targets = [i] := by
        rw [hd] at h
        simpa using h.symm
      subst htar
      rw [List.mem_singleton] at ht
      subst ht
      simpa using hc
    · have hcm : i ∉ readyIndices r := by simpa using hc
      have hd : r.dispatch (.pinned i) =
          (.error (.routingError "pinned endpoint is not Ready"), r) := by
        simp [Router.dispatch, hcm]
      rw [hd] at h
      exact absurd h (by simp)
  | disaggregated =>
    by_cases he : (readyIndices r).isEmpty = true
    · have hd : r.dispatch .disaggregated =
          (.error (.routingError "no Ready endpoint available"), r) := by
        simp [Router.dispatch, he]
      rw [hd] at h
      exact absurd h (by simp)
    · have hne2 : readyIndices r ≠ [] := fun hnil => he (List.isEmpty_iff.mpr hnil)
      have hpos : 0 < (readyIndices r).length := List.length_pos.mpr hne2
      have hd : r.dispatch .disaggregated =
          (.ok [(readyIndices r).getD (r.rrCounter % (readyIndices r).length) 0,
                (readyIndices r).getD ((r.rrCounter + 1) % (readyIndices r).length) 0],
           { r with rrCounter := r.rrCounter + 2 }) := by
        simp [Router.dispatch, he]
      have htar : targets =
          [(readyIndices r).getD (r.rrCounter % (readyIndices r).length) 0,
           (readyIndices r).getD ((r.rrCounter + 1) % (readyIndices r).length) 0] := by
        rw [hd] at h
        simpa using h.symm
      subst htar
      rcases List.mem_cons.mp ht with rfl | ht2
      · exact getD_mem_of_lt_nat _ _ (Nat.mod_lt _ hpos)
      · rcases List.mem_cons.mp ht2 with rfl | ht3
        · exact getD_mem_of_lt_nat _ _ (Nat.mod_lt _ hpos)
        · cases ht3

/-- Modelled from the spec: a two-endpoint Router with both endpoints Ready,
used to exercise round-robin dispatch. -/
def sampleReadyRouter : Router :=
  { handles := [{ host := "host-a", port := 8000, deviceLo := 0,
                  deviceHi := 1, status := .Ready },
                { host := "host-b", port := 8001, deviceLo := 1,
                  deviceHi := 2, status := .Ready }],
    deviceIdStarts := [0, 1, 2],
    rrCounter := 0 }

/-- Witness for C9: round-robin dispatch on a two-endpoint all-Ready Router
targets endpoint 0, which is indeed in range and Ready. -/
theorem dispatch_only_ready_spotcheck :
    0 < sampleReadyRouter.handles.length ∧
    (sampleReadyRouter.handles.getD 0 default).status = EndpointStatus.Ready := by
  have h := dispatch_only_ready sampleReadyRouter .roundRobin [0] (by rfl)
  exact h 0 (by decide)

theorem readyIndices_all_ready (r : Router)
    (h : ∀ hd ∈ r.handles, hd.status = EndpointStatus.Ready) :
    readyIndices r = List.range r.handles.length := by
  apply List.filter_eq_self.mpr
  intro i hi
  have hlt : i < r.handles.length := List.mem_range.mp hi
  have hmem : r.handles.getD i default ∈ r.handles := by
    rw [List.getD_eq_getElem _ default hlt]
    exact List.getElem_mem hlt
  simpa using h _ hmem

theorem forward_all_ready (r : Router)
    (hready : ∀ hd ∈ r.handles, hd.status = EndpointStatus.Ready)
    (hpos : 0 < r.handles.length) :
    r.forward = (.ok [r.rrCounter % r.handles.length],
      { r with rrCounter := r.rrCounter + 1 }) := by
  have hri := readyIndices_all_ready r hready
  have hne : ¬ (readyIndices r).isEmpty = true := by
    rw [hri, List.isEmpty_iff, List.range_eq_nil]
    omega
  have hmod : r.rrCounter % r.handles.length < r.handles.length :=
    Nat.mod_lt _ hpos
  have hgd : (List.range r.handles.length).getD
      (r.rrCounter % r.handles.length) 0 = r.rrCounter % r.handles.length := by
    rw [List.getD_eq_getElem _ 0 (by simpa using hmod)]
    simp
  simp only [Router.forward, Router.dispatch, hri, List.length_range]
  rw [if_neg (by simpa [hri] using hne)]
  rw [hgd]

theorem forwardRounds_all_ready (k : Nat) (r : Router)
    (hready : ∀ hd ∈ r.handles, hd.status = EndpointStatus.Ready)
    (hpos : 0 < r.handles.length) :
    (forwardRounds r k).1 =
      (List.range k).map (fun t => (r.rrCounter + t) % r.handles.length) := by
  induction k generalizing r with
  | zero => simp [forwardRounds]
  | succ k ih =>
    have hfwd := forward_all_ready r hready hpos
    have hih := ih { r with rrCounter := r.rrCounter + 1 } hready hpos
    simp only [forwardRounds, hfwd]
    rw [hih]
    rw [List.range_succ_eq_map k, List.map_cons, List.map_map]
    simp only [List.cons_append, List.nil_append]
    congr 1
    apply List.map_congr_left
    intro a _
    simp only [Function.comp_apply, Nat.succ_eq_add_one]
    congr 1
    omega

theorem count_mod_cycle (N c i : Nat) (hi : i < N) :
    ((List.range N).map (fun t => (c + t) % N)).count i = 1 := by
  have hpos : 0 < N := by omega
  have hnodup : ((List.range N).map (fun t => (c + t) % N)).Nodup := by
    refine List.Nodup.map_on ?_ (List.nodup_range N)
    intro x hx y hy hxy
    have hx2 : x < N := List.mem_range.mp hx
    have hy2 : y < N := List.mem_range.mp hy
    have h2 : x % N = y % N := Nat.ModEq.add_left_cancel' c hxy
    rwa [Nat.mod_eq_of_lt hx2, Nat.mod_eq_of_lt hy2] at h2
  have hsubset : ((List.range N).map (fun t => (c + t) % N)) ⊆ List.range N := by
    intro a ha
    obtain ⟨t, _, rfl⟩ := List.mem_map.mp ha
    exact List.mem_range.mpr (Nat.mod_lt _ hpos)
  have hperm : ((List.range N).map (fun t => (c + t) % N)).Perm (List.range N) :=
    (hnodup.subperm hsubset).perm_of_length_le (by simp)
  rw [hperm.count_eq]
  exact List.count_eq_one_of_mem (List.nodup_range N) (List.mem_range.mpr hi)

theorem count_mod_two_cycles (N c i : Nat) (hi : i < N) :
    ((List.range (2 * N)).map (fun t => (c + t) % N)).count i = 2 := by
  have h2 : 2 * N = N + N := by ring
  rw [h2, List.range_add, List.map_append, List.count_append, List.map_map]
  have hsecond : ((List.range N).map ((fun t => (c + t) % N) ∘ (N + ·))) =
      ((List.range N).map (fun t => ((c + N) + t) % N)) := by
    apply List.map_congr_left
    intro a _
    simp only [Function.comp_apply]
    congr 1
    omega
  rw [hsecond, count_mod_cycle N c i hi, count_mod_cycle N (c + N) i hi]

/-- C7: under the default round-robin policy, a Router with N Ready endpoints
dispatches exactly 2 of 2N successive forward calls to each of its N
endpoints. -/
theorem round_robin_two_rounds_fair (r : Router)
    (hready : ∀ hd ∈ r.handles, hd.status = EndpointStatus.Ready) :
    ∀ i, i < r.handles.length →
      ((forwardRounds r (2 * r.handles.length)).1).count i = 2 := by
  intro i hi
  have hpos : 0 < r.handles.length := by omega
  rw [forwardRounds_all_ready (2 * r.handles.length) r hready hpos]
  exact count_mod_two_cycles r.handles.length r.rrCounter i hi

/-- Witness for C7: on the two-endpoint all-Ready Router, 4 forward calls
dispatch exactly 2 requests to endpoint 0 and 2 to endpoint 1. -/
theorem round_robin_two_rounds_fair_spotcheck :
    ((forwardRounds sampleReadyRouter 4).1).count 0 = 2 ∧
    ((forwardRounds sampleReadyRouter 4).1).count 1 = 2 := by
  have h := round_robin_two_rounds_fair sampleReadyRouter (by decide)
  exact ⟨h 0 (by decide), h 1 (by decide)⟩

/-- Result of one diagnostic check, translated from the `CheckResult`
dataclass in `android/diagnose_android_build.py`. -/
structure CheckResult where
  name : String
  status : String
  details : String
  suggestion : Option String := none
deriving DecidableEq, Repr

/-- Embedding of Python's `str.lower()` as used by the diagnostic: lowercase
every character (the statuses the diagnostic compares are ASCII). -/
def strLower (s : String) : String :=
  String.mk (s.data.map Char.toLower)

/-- Translated from `CheckResult.is_ok`: `self.status.lower() == "ok"`. -/
def CheckResult.is_ok (c : CheckResult) : Bool :=
  strLower c.status == "ok"

/-- Translated from `main` in `android/diagnose_android_build.py`.  The
checks list is produced by environment probes (I/O), so the exit-code
decision is embedded as a function of the gathered check results:
`failing = [c for c in checks if not c.is_ok]` and the function returns 1
when `failing` is non-empty and 0 otherwise. -/
def mainExitCode (checks : List CheckResult) : Nat :=
  let failing := checks.filter (fun c => ! c.is_ok)
  if failing.isEmpty then 0 else 1

/-- C10: the Android build diagnostic's main returns exit code 1 iff at
least one check has a status other than "ok" compared case-insensitively via
CheckResult.is_ok — so WARN results fail the diagnostic just like FAIL
results — and returns 0 otherwise. -/
theorem diagnostic_exit_code_iff :
    (∀ checks : List CheckResult,
      (mainExitCode checks = 1 ↔ ∃ c ∈ checks, ¬ c.is_ok) ∧
      (mainExitCode checks = 0 ↔ ∀ c ∈ checks, c.is_ok)) ∧
    (∀ c : CheckResult, c.status = "WARN" → c.is_ok = false) := by
  constructor
  · intro checks
    have hiff : (checks.filter (fun c => ! c.is_ok)).isEmpty = true ↔
        ∀ c ∈ checks, c.is_ok := by
      rw [List.isEmpty_iff, List.filter_eq_nil_iff]
      constructor
      · intro hall c hc
        simpa using hall c hc
      · intro hall c hc
        simp [hall c hc]
    by_cases hE : (checks.filter (fun c => ! c.is_ok)).isEmpty = true
    · have h0 : mainExitCode checks = 0 := by
        simp only [mainExitCode, hE, if_true]
      constructor
      · rw [h0]
        constructor
        · intro hc
          exact absurd hc (by omega)
        · rintro ⟨c, hc, hnot⟩
          exact absurd (hiff.mp hE c hc) hnot
      · rw [h0]
        exact ⟨fun _ => hiff.mp hE, fun _ => rfl⟩
    · have h1 : mainExitCode checks = 1 := by
        simp only [mainExitCode]
        rw [if_neg hE]
      have hex : ∃ c ∈ checks, ¬ c.is_ok := by
        by_contra hno
        push_neg at hno
        exact hE (hiff.mpr (fun c hc => by simpa using hno c hc))
      constructor
      · exact ⟨fun _ => hex, fun _ => h1⟩
      · rw [h1]
        constructor
        · intro h10
          exact absurd h10 (by omega)
        · intro hall
          obtain ⟨c, hc, hnot⟩ := hex
          exact absurd (hall c hc) hnot
  · intro c hc
    simp only [CheckResult.is_ok, hc]
    decide

/-- Witness for C10: a single WARN check makes the diagnostic exit with 1,
while a single OK check makes it exit with 0. -/
theorem diagnostic_exit_code_iff_spotcheck :
    mainExitCode [{ name := "JAVA_HOME", status := "WARN",
                    details := "path missing", suggestion := none }] = 1 ∧
    mainExitCode [{ name := "cmake", status := "OK",
                    details := "available", suggestion := none }] = 0 := by
  have h := diagnostic_exit_code_iff
  constructor
  · exact (h.1 _).1.mpr ⟨_, List.mem_singleton.mpr rfl, by decide⟩
  · exact (h.1 _).2.mpr (by decide)
